import Mathlib

/-!
Verification of the quiz session engine (`quiz.py`) of the ham-radio-course
repository: data model, selection protocol, sampling policy, answer checking,
and the quiz run loop, embedded shallowly in Lean.

Randomness is modelled explicitly: every call the Python code makes to
`random.shuffle` is parameterised here by the permutation it draws, given as a
list of source indices (a permutation of `List.range n`); `applyPerm p xs`
returns the list whose position `j` holds `xs[p[j]]`.
-/

/-- A question record, mirroring the JSON question objects consumed by
`Quiz._load` (fields `id`, `question`, `answer`, `distractor_1..3`). -/
structure Question where
  id : String
  question : String
  answer : String
  distractor_1 : String
  distractor_2 : String
  distractor_3 : String
deriving Repr, DecidableEq, Inhabited

/-- The choice list built in `Quiz.show_question`:
`[q["answer"], q["distractor_1"], q["distractor_2"], q["distractor_3"]]`. -/
def Question.choices (q : Question) : List String :=
  [q.answer, q.distractor_1, q.distractor_2, q.distractor_3]

/-- An entry of `Quiz.questions_answered_incorrectly`, as appended by
`Quiz.check_answer`. -/
structure IncorrectAnswer where
  question : Question
  your_answer : String
  correct_answer : String
deriving Repr, DecidableEq

/-- The mutable per-run fields of the `Quiz` object that the quiz loop uses
(`questions`, `questions_answered_incorrectly`, `current_index`, `score`,
`current_choices`, `limit_questions`). -/
structure QuizState where
  questions : List Question
  questions_answered_incorrectly : List IncorrectAnswer
  current_index : Nat
  score : Nat
  current_choices : List String
  limit_questions : Bool
deriving Repr, DecidableEq

/-- The state of these fields right after `Quiz.__init__` set a working
question list (before `prepare_quiz`). `limit_questions` is initialised
to `True` as in `__init__`. -/
def init_state (qs : List Question) : QuizState :=
  { questions := qs
    questions_answered_incorrectly := []
    current_index := 0
    score := 0
    current_choices := []
    limit_questions := true }

/-- Apply a shuffle outcome: position `j` of the result holds `xs[p j]`.
For `p` a permutation of `List.range xs.length` this is exactly a
`random.shuffle` outcome of `xs`. -/
def applyPerm (p : List Nat) (xs : List α) : List α :=
  p.filterMap (fun i => xs[i]?)

theorem applyPerm_nil (p : List Nat) : applyPerm p ([] : List α) = [] := by
  induction p with
  | nil => rfl
  | cons a p ih => simp [applyPerm, List.filterMap_cons]

theorem applyPerm_range : ∀ xs : List α, applyPerm (List.range xs.length) xs = xs := by
  intro xs
  induction xs with
  | nil => exact applyPerm_nil _
  | cons a t ih =>
    have h1 : List.range (t.length + 1) = 0 :: (List.range t.length).map Nat.succ :=
      List.range_succ_eq_map t.length
    simp only [applyPerm, List.length_cons, h1, List.filterMap_cons, List.getElem?_cons_zero,
      List.filterMap_map]
    have h2 : (fun (i : Nat) => (a :: t)[i.succ]?) = fun (i : Nat) => t[i]? := by
      funext i
      simp
    rw [show ((fun i => (a :: t)[i]?) ∘ Nat.succ) = fun i => t[i]? from h2]
    exact congrArg (a :: ·) ih

/-- A shuffle outcome of `xs` is a permutation of `xs`. -/
theorem applyPerm_perm (p : List Nat) (xs : List α)
    (hp : p.Perm (List.range xs.length)) : (applyPerm p xs).Perm xs := by
  have h := hp.filterMap (fun i => xs[i]?)
  rw [show (List.range xs.length).filterMap (fun i => xs[i]?) = xs from applyPerm_range xs] at h
  exact h

theorem applyPerm_length (p : List Nat) (xs : List α)
    (hp : p.Perm (List.range xs.length)) : (applyPerm p xs).length = xs.length :=
  (applyPerm_perm p xs hp).length_eq

theorem applyPerm_eq_map (p : List Nat) (xs : List α) (d : α)
    (hv : ∀ j ∈ p, j < xs.length) :
    applyPerm p xs = p.map (fun j => xs.getD j d) := by
  induction p with
  | nil => rfl
  | cons a p ih =>
    have ha : a < xs.length := hv a (List.mem_cons_self a p)
    simp only [applyPerm, List.filterMap_cons, List.getElem?_eq_getElem ha, List.map_cons]
    rw [show xs.getD a d = xs[a] from List.getD_eq_getElem xs d ha]
    exact congrArg (xs[a] :: ·) (ih (fun j hj => hv j (List.mem_cons_of_mem a hj)))

theorem applyPerm_getD (p : List Nat) (xs : List α) (d : α) (i : Nat)
    (hv : ∀ j ∈ p, j < xs.length) (hi : i < p.length) :
    (applyPerm p xs).getD i d = xs.getD (p.getD i 0) d := by
  rw [applyPerm_eq_map p xs d hv]
  have hi' : i < (p.map (fun j => xs.getD j d)).length := by simpa using hi
  rw [List.getD_eq_getElem _ d hi', List.getElem_map, ← List.getD_eq_getElem p 0 hi]

/-- `Quiz.prepare_quiz`: shuffle `self.questions` (shuffle outcome `p`), then,
if `self.limit_questions`, replace it by its first 20 elements
(`self.questions[:20]`); reset `current_index`, `score` and the incorrect log. -/
def prepare_quiz (p : List Nat) (s : QuizState) : QuizState :=
  let qs := applyPerm p s.questions
  let qs := if s.limit_questions then qs.take 20 else qs
  { s with questions := qs
           current_index := 0
           score := 0
           questions_answered_incorrectly := [] }

/-- `Quiz.show_question`, restricted to its state effect: build
`choices = [q["answer"], q["distractor_1"], q["distractor_2"], q["distractor_3"]]`,
shuffle it (shuffle outcome `p`), and store the result in
`self.current_choices`. In the source the question lookup
`self.questions[self.current_index]` would raise `IndexError` out of range;
the loop of `run_quiz` only calls this with `current_index` in range, so the
out-of-range branch (identity here) is never taken there. -/
def show_question (p : List Nat) (s : QuizState) : QuizState :=
  match s.questions[s.current_index]? with
  | some q => { s with current_choices := applyPerm p q.choices }
  | none => s

/-- `Quiz.check_answer`: `selected = self.current_choices[choice_num - 1]`,
`correct = q["answer"]`; if `selected == correct` (string equality) increment
the score, else append an incorrect-answer record. Out-of-range accesses
(never performed by `run_quiz`) are rendered total via defaults. -/
def check_answer (choice_num : Nat) (s : QuizState) : QuizState :=
  match s.questions[s.current_index]? with
  | some q =>
    let selected := s.current_choices.getD (choice_num - 1) ""
    let correct := q.answer
    if selected = correct then
      { s with score := s.score + 1 }
    else
      { s with questions_answered_incorrectly :=
          s.questions_answered_incorrectly ++
            [{ question := q, your_answer := selected, correct_answer := correct }] }
  | none => s

/-- Outcome of `Quiz.run_quiz` on a given finite keystream. -/
inductive RunResult where
  /-- `run_quiz` returned `False` (user pressed `q` while a question awaited
  an answer); `show_results` was not called. -/
  | aborted (s : QuizState) : RunResult
  /-- `show_results` ran and computed `percentage`; `run_quiz` returns `True`. -/
  | completed (s : QuizState) (percentage : ℚ) : RunResult
  /-- `show_results` evaluated `(self.score / len(self.questions)) * 100` with
  an empty question list: `ZeroDivisionError`. -/
  | divisionError (s : QuizState) : RunResult
  /-- The modelled keystream ran out: the program would block in `get_key`. -/
  | blocked (s : QuizState) : RunResult
deriving Repr

/-- The quiz-state component of a run outcome. -/
def RunResult.state : RunResult → QuizState
  | .aborted s => s
  | .completed s _ => s
  | .divisionError s => s
  | .blocked s => s

/-- The results screen data of a run outcome (score, total, percentage),
present only when `show_results` actually completed. -/
def RunResult.results_view : RunResult → Option (Nat × Nat × ℚ)
  | .completed s pct => some (s.score, s.questions.length, pct)
  | _ => none

/-- `Quiz.show_results`: computes
`percentage = (self.score / len(self.questions)) * 100`, a division that
raises `ZeroDivisionError` when the question list is empty. -/
def show_results (s : QuizState) : RunResult :=
  if s.questions.length = 0 then .divisionError s
  else .completed s ((s.score : ℚ) / (s.questions.length : ℚ) * 100)

/-- The loop of `Quiz.run_quiz` after `prepare_quiz`. `rand n` is the outcome
of the `n`-th `random.shuffle` call made by `show_question`; `rc` is the count
of such calls so far; `presented` records whether the current question has
already been shown (the inner `while True` re-reads a key without re-shuffling
after an unrecognised key). Keys `'1'..'4'` answer (`check_answer` then
`current_index += 1`), `'q'` returns `False` (aborted), anything else
re-reads. When `current_index` reaches `len(questions)` the outer loop ends
and `show_results` runs, whatever keys remain. -/
def run_quiz_go (rand : Nat → List Nat) : Nat → Bool → QuizState → List Char → RunResult
  | rc, presented, s, keys =>
    if s.current_index < s.questions.length then
      let rc' := if presented then rc else rc + 1
      let s' := if presented then s else show_question (rand rc) s
      match keys with
      | [] => .blocked s'
      | k :: ks =>
        if k = 'q' then .aborted s'
        else if k = '1' ∨ k = '2' ∨ k = '3' ∨ k = '4' then
          let s2 := check_answer (k.toNat - 48) s'
          run_quiz_go rand rc' false { s2 with current_index := s2.current_index + 1 } ks
        else
          run_quiz_go rand rc' true s' ks
    else show_results s

/-- `Quiz.run_quiz`: `prepare_quiz` (whose shuffle outcome is `p0`) followed by
the question loop. -/
def run_quiz (rand : Nat → List Nat) (p0 : List Nat) (s : QuizState) (keys : List Char) :
    RunResult :=
  run_quiz_go rand 0 false (prepare_quiz p0 s) keys

/-- Sampling mode vocabulary: `limit_questions = True` is the Limited (cap at
20) mode entered by a plain digit, `False` the Unlimited mode entered by a
shifted digit. -/
inductive SamplingMode where
  | Limited : SamplingMode
  | Unlimited : SamplingMode
deriving Repr, DecidableEq

/-- The sampling mode denoted by a `limit_questions` flag value. -/
def modeOf (limit : Bool) : SamplingMode :=
  if limit then .Limited else .Unlimited

/-- The `shifted_digit_map` dictionary of `Quiz.select_category`:
SHIFT+1=!, SHIFT+2=@, ..., SHIFT+9=(, SHIFT+0=). -/
def shifted_digit_map : Char → Option Nat
  | '!' => some 1
  | '@' => some 2
  | '#' => some 3
  | '$' => some 4
  | '%' => some 5
  | '^' => some 6
  | '&' => some 7
  | '*' => some 8
  | '(' => some 9
  | ')' => some 0
  | _ => none

/-- The "All Categories" pool built by the `idx == 0` branch of
`Quiz.select_category`: `self.questions = []` extended with every
`self.categories.values()` list in order. -/
def all_categories_pool (categories : List (String × List Question)) : List Question :=
  (categories.map Prod.snd).flatten

/-- `total_qs` of `Quiz.show_menu`: `sum(len(qs) for qs in
self.categories.values())`. -/
def total_questions (categories : List (String × List Question)) : Nat :=
  (categories.map (fun c => c.2.length)).sum

/-- What one iteration of the `while True` loop of `Quiz.select_category`
does with the key it read. -/
inductive SelectStep where
  /-- `return None` (key `'q'`). -/
  | quit : SelectStep
  /-- `return cat_name` after assigning `self.questions` and
  `self.limit_questions`. -/
  | chosen (questions : List Question) (limit : Bool) (name : String) : SelectStep
  /-- No `return` taken: the loop reads another key. `limit` is the value
  `self.limit_questions` holds at that point (the digit branches assign it
  before the range test). -/
  | retry (limit : Bool) : SelectStep
deriving Repr

/-- The body of the `while True` loop of `Quiz.select_category`, for one key.
`categories` models `self.categories` (a dict, in insertion order) and
`sorted_cats` the list `show_menu` returned (`sorted(self.categories.items())`).
A specific category's questions are looked up by name in `categories`, as
`self.categories[cat_name]` does (`.copy()` is value-identical here; the
aliasing effect of `.copy()` is modelled separately on `QuizObj`). -/
def select_category_key (categories sorted_cats : List (String × List Question))
    (limit : Bool) (key : Char) : SelectStep :=
  if key = 'q' then .quit
  else if key.isDigit then
    let idx := key.toNat - 48
    if idx = 0 then
      .chosen (all_categories_pool categories) true "All Categories"
    else if 1 ≤ idx ∧ idx ≤ sorted_cats.length then
      let cat_name := (sorted_cats.getD (idx - 1) ("", [])).1
      .chosen ((categories.lookup cat_name).getD []) true cat_name
    else .retry true
  else
    match shifted_digit_map key with
    | some idx =>
      if idx = 0 then
        .chosen (all_categories_pool categories) false "All Categories"
      else if 1 ≤ idx ∧ idx ≤ sorted_cats.length then
        let cat_name := (sorted_cats.getD (idx - 1) ("", [])).1
        .chosen ((categories.lookup cat_name).getD []) false cat_name
      else .retry false
    | none => .retry limit

/-- `Quiz.select_category` over a finite keystream: keep reading keys until a
branch returns. `some none` models `return None` (quit), `some (some (qs, l,
name))` a selection that set `self.questions = qs` and `self.limit_questions
= l` and returned `name`; `none` means the keystream ran out (the program
would block in `get_key`). -/
def select_category_loop (categories sorted_cats : List (String × List Question))
    (limit : Bool) : List Char → Option (Option (List Question × Bool × String))
  | [] => none
  | k :: ks =>
    match select_category_key categories sorted_cats limit k with
    | .quit => some none
    | .chosen qs l name => some (some (qs, l, name))
    | .retry l => select_category_loop categories sorted_cats l ks

/-- `sorted(self.categories.items())` of `Quiz.show_menu`: category entries in
lexical order of title (dict keys are unique, so the first component decides). -/
def sort_cats (categories : List (String × List Question)) :
    List (String × List Question) :=
  categories.mergeSort (fun a b => decide (a.1 ≤ b.1))

/-- The rows of the category table printed by `Quiz.show_menu`:
`(selector index, title, question count)`; row 0 is always
`("All Categories", total_qs)`, then the sorted categories numbered from 1. -/
def show_menu_rows (categories : List (String × List Question)) :
    List (Nat × String × Nat) :=
  (0, "All Categories", total_questions categories) ::
    (sort_cats categories).enum.map (fun e => (e.1 + 1, e.2.1, e.2.2.length))

/-- The menu entry a selector index denotes: index 0 the "All Categories"
union, index `i + 1` the `i`-th sorted category (its questions found by name
in `categories`, as the source does). -/
def menu_pool (categories sorted_cats : List (String × List Question)) (i : Nat) :
    List Question :=
  if i = 0 then all_categories_pool categories
  else ((categories.lookup ((sorted_cats.getD (i - 1) ("", [])).1)).getD [])

/-- The category name a selector index denotes. -/
def menu_name (sorted_cats : List (String × List Question)) (i : Nat) : String :=
  if i = 0 then "All Categories"
  else (sorted_cats.getD (i - 1) ("", [])).1

/-- The states of the outer application loop: course/level selection
(`main.quiz` prompting 1 or 2), the category menu and quiz run inside
`Quiz.run`, and process exit. -/
inductive OrchState where
  | CourseSelect : OrchState
  | CategoryMenu : OrchState
  | QuizRun : OrchState
  | Exit : OrchState
deriving Repr, DecidableEq

/-- One `CategoryMenu` visit of `Quiz.run`: `select_category` resolves the
keystream; `None` hits `break`, after which `run` prints a farewell and
returns — the process ends (`Exit`). A selection enters `run_quiz`
(`QuizRun`). `none`: the keystream ran out. -/
def run_category_menu_step (categories sorted_cats : List (String × List Question))
    (limit : Bool) (keys : List Char) : Option OrchState :=
  match select_category_loop categories sorted_cats limit keys with
  | some none => some .Exit
  | some (some _) => some .QuizRun
  | none => none

/-- Python list aliasing model for the frame claim: a heap of list cells.
`categories` maps each title to the cell holding its question list (the lists
stored in `self.categories`); `questions_ref` is the cell `self.questions`
currently points at. -/
structure QuizObj where
  heap : List (List Question)
  categories : List (String × Nat)
  questions_ref : Nat
  limit_questions : Bool
deriving Repr

/-- The specific-category branch of `Quiz.select_category`:
`self.questions = self.categories[cat_name].copy()` — allocate a fresh cell
holding a copy of the category cell `r`, and point `self.questions` at it. -/
def select_copy_category (o : QuizObj) (r : Nat) : QuizObj :=
  { o with heap := o.heap ++ [o.heap.getD r []]
           questions_ref := o.heap.length }

/-- The "All Categories" branch of `Quiz.select_category`:
`self.questions = []` then `extend` with every category list — a fresh cell
holding the concatenation. -/
def select_all_categories (o : QuizObj) : QuizObj :=
  { o with heap := o.heap ++ [(o.categories.map (fun c => o.heap.getD c.2 [])).flatten]
           questions_ref := o.heap.length }

/-- `Quiz.prepare_quiz` on the heap model: `random.shuffle(self.questions)`
mutates the pointed-at cell in place; `self.questions = self.questions[:20]`
(under `limit_questions`) allocates a fresh cell holding the slice and
rebinds the reference. -/
def prepare_quiz_heap (p : List Nat) (o : QuizObj) : QuizObj :=
  let shuffled := applyPerm p (o.heap.getD o.questions_ref [])
  let h1 := o.heap.set o.questions_ref shuffled
  if o.limit_questions then
    { o with heap := h1 ++ [shuffled.take 20]
             questions_ref := h1.length }
  else
    { o with heap := h1 }

/-- The session state right after a question `q` is presented on a fresh
one-question run: `show_question` with shuffle outcome `p`. -/
def present_state (q : Question) (p : List Nat) : QuizState :=
  show_question p (init_state [q])

theorem present_state_def (q : Question) (p : List Nat) :
    present_state q p =
      { questions := [q]
        questions_answered_incorrectly := []
        current_index := 0
        score := 0
        current_choices := applyPerm p q.choices
        limit_questions := true } := rfl

/-- Modelled from the spec (§4.4 tie-break): `submit` judges correctness by
slot identity — the score is incremented exactly when the chosen position
`n` is the shuffled slot that carries the canonical `answer` field (the slot
`j` with `p[j] = 0`), for every question including malformed ones whose
answer text recurs as a distractor text. -/
def submit_judges_by_slot : Prop :=
  ∀ (q : Question) (p : List Nat), p.Perm (List.range 4) →
    ∀ n : Nat, 1 ≤ n → n ≤ 4 →
      ((check_answer n (present_state q p)).score = (present_state q p).score + 1 ↔
        p.getD (n - 1) 4 = 0)

/-- C1 fails on the code: `check_answer` compares strings, so for the
malformed question with answer `"A"` and distractors `"A","C","D"`, shuffled
by `[2,0,1,3]` to `["C","A","A","D"]`, choosing slot 3 (which carries
`distractor_1`, not the canonical answer field) still increments the score. -/
theorem c1_slot_identity_counterexample : ¬ submit_judges_by_slot := by
  intro h
  have h3 := h { id := "T-001-001-001", question := "t", answer := "A",
                 distractor_1 := "A", distractor_2 := "C", distractor_3 := "D" }
               [2, 0, 1, 3] (by decide) 3 (by decide) (by decide)
  exact absurd (h3.mp (by decide)) (by decide)

/-- The question of the spec's scoring example: answer `"A"`, distractors
`"B","C","D"`. -/
def exampleQ : Question :=
  { id := "B-001-001-001", question := "t", answer := "A",
    distractor_1 := "B", distractor_2 := "C", distractor_3 := "D" }

/-- A shuffle outcome presenting `exampleQ` as `["C","A","D","B"]`. -/
def examplePerm : List Nat := [2, 0, 3, 1]

/-- C1 (amended): `check_answer` judges by string equality of the selected
displayed text with the `answer` field; whenever the answer text differs from
each distractor text this coincides with slot identity (chosen slot = the
slot carrying the canonical answer field), and in particular for a question
with answer `"A"`, distractors `"B","C","D"` shuffled to `[C,A,D,B]`,
`submit(2)` increments the score. -/
theorem c1_submit_string_equality (q : Question) (p : List Nat) (n : Nat)
    (hp : p.Perm (List.range 4)) (h1 : 1 ≤ n) (h4 : n ≤ 4) :
    ((check_answer n (present_state q p)).score = (present_state q p).score + 1 ↔
      (applyPerm p q.choices).getD (n - 1) "" = q.answer) ∧
    (q.answer ≠ q.distractor_1 → q.answer ≠ q.distractor_2 → q.answer ≠ q.distractor_3 →
      ((check_answer n (present_state q p)).score = (present_state q p).score + 1 ↔
        p.getD (n - 1) 4 = 0)) ∧
    (check_answer 2 (present_state exampleQ examplePerm)).score
      = (present_state exampleQ examplePerm).score + 1 := by
  have hiff : (check_answer n (present_state q p)).score = (present_state q p).score + 1 ↔
      (applyPerm p q.choices).getD (n - 1) "" = q.answer := by
    by_cases hsel : (applyPerm p q.choices)[n - 1]?.getD "" = q.answer
    · simp [present_state_def, check_answer, hsel]
    · simp [present_state_def, check_answer, hsel]
  refine ⟨hiff, fun hd1 hd2 hd3 => ?_, by decide⟩
  rw [hiff]
  have hlen : p.length = 4 := by simpa using hp.length_eq
  have hn : n - 1 < p.length := by omega
  have hv : ∀ j ∈ p, j < q.choices.length := by
    intro j hj
    have : j ∈ List.range 4 := hp.mem_iff.mp hj
    simpa [Question.choices] using List.mem_range.mp this
  have hj4 : p.getD (n - 1) 4 = p.getD (n - 1) 0 := by
    rw [List.getD_eq_getElem p 4 hn, List.getD_eq_getElem p 0 hn]
  have hjmem : p.getD (n - 1) 0 ∈ p := by
    rw [List.getD_eq_getElem p 0 hn]
    exact List.getElem_mem hn
  have hjlt : p.getD (n - 1) 0 < 4 := by
    simpa [Question.choices] using hv _ hjmem
  rw [applyPerm_getD p q.choices "" (n - 1) hv hn, hj4]
  generalize hgen : p.getD (n - 1) 0 = j at hjlt ⊢
  interval_cases j
  · simp [Question.choices]
  · simp [Question.choices, Ne.symm hd1]
  · simp [Question.choices, Ne.symm hd2]
  · simp [Question.choices, Ne.symm hd3]

/-- Witness for `c1_submit_string_equality`: the `[C,A,D,B]` instance with
`submit(2)`. -/
theorem c1_submit_string_equality_witness :
    (check_answer 2 (present_state exampleQ examplePerm)).score
      = (present_state exampleQ examplePerm).score + 1 :=
  (c1_submit_string_equality exampleQ examplePerm 2 (by decide) (by decide)
    (by decide)).1.mpr (by decide)

/-- C2 at the code: starting a run on an empty question list reaches
`show_results`, whose percentage computation divides by the question count 0
— a `ZeroDivisionError` — instead of completing with percentage 0.0. The
prepared session does carry score 0 and an empty working list. -/
theorem c2_empty_pool_division_error (rand : Nat → List Nat) (p0 : List Nat)
    (s : QuizState) (keys : List Char) (h : s.questions = []) :
    run_quiz rand p0 s keys = .divisionError (prepare_quiz p0 s) ∧
    (prepare_quiz p0 s).score = 0 ∧ (prepare_quiz p0 s).questions = [] := by
  have hq : (prepare_quiz p0 s).questions = [] := by
    simp [prepare_quiz, h, applyPerm_nil]
  refine ⟨?_, rfl, hq⟩
  unfold run_quiz run_quiz_go
  simp [hq, show_results]

/-- Witness for `c2_empty_pool_division_error` at a concrete empty session. -/
theorem c2_empty_pool_division_error_witness :
    run_quiz (fun _ => []) [] (init_state []) []
        = .divisionError (prepare_quiz [] (init_state [])) ∧
    (prepare_quiz [] (init_state [])).score = 0 ∧
    (prepare_quiz [] (init_state [])).questions = [] :=
  c2_empty_pool_division_error (fun _ => []) [] (init_state []) [] rfl

/-- A dummy question used to build concrete pools. -/
def mkQ (n : Nat) : Question :=
  { id := toString n, question := "", answer := "",
    distractor_1 := "", distractor_2 := "", distractor_3 := "" }

/-- A pool of 21 distinct questions. -/
def pool21 : List Question := (List.range 21).map mkQ

/-- C3 fails as stated: in Limited mode a 21-question pool is truncated to 20
questions, so the sampled sequence is not a permutation of the input pool
(here with the identity shuffle outcome). -/
theorem c3_permutation_counterexample :
    modeOf (init_state pool21).limit_questions = .Limited ∧
    (List.range 21).Perm (List.range (init_state pool21).questions.length) ∧
    ¬ (prepare_quiz (List.range 21) (init_state pool21)).questions.Perm
        (init_state pool21).questions := by
  have h21 : pool21.length = 21 := by simp [pool21]
  have happ : applyPerm (List.range 21) pool21 = pool21 := by
    rw [show (21 : Nat) = pool21.length from h21.symm]
    exact applyPerm_range pool21
  refine ⟨rfl, ?_, ?_⟩
  · rw [show (init_state pool21).questions.length = 21 from h21]
  · intro hperm
    have hq : (prepare_quiz (List.range 21) (init_state pool21)).questions
        = pool21.take 20 := by
      simp [prepare_quiz, init_state, happ]
    have hlen := hperm.length_eq
    rw [hq] at hlen
    simp [List.length_take, h21, init_state] at hlen

/-- C3 (amended): `prepare_quiz` returns `min N 20` questions in Limited mode
and `N` in Unlimited mode; the Unlimited result is a permutation of the pool;
the Limited result is a sub-multiset (`Subperm`) of the pool, and a full
permutation exactly when the pool has at most 20 questions. -/
theorem c3_sampling_policy (p : List Nat) (s : QuizState)
    (hp : p.Perm (List.range s.questions.length)) :
    (modeOf s.limit_questions = .Limited →
        (prepare_quiz p s).questions.length = min s.questions.length 20 ∧
        (prepare_quiz p s).questions.Subperm s.questions ∧
        (s.questions.length ≤ 20 → (prepare_quiz p s).questions.Perm s.questions)) ∧
    (modeOf s.limit_questions = .Unlimited →
        (prepare_quiz p s).questions.length = s.questions.length ∧
        (prepare_quiz p s).questions.Perm s.questions) := by
  have hperm := applyPerm_perm p s.questions hp
  have hlen := applyPerm_length p s.questions hp
  cases hl : s.limit_questions
  · refine ⟨fun hmode => by simp [modeOf, hl] at hmode, fun _ => ?_⟩
    constructor
    · simp [prepare_quiz, hl, hlen]
    · simp only [prepare_quiz, hl, if_neg Bool.false_ne_true]
      exact hperm
  · refine ⟨fun _ => ?_, fun hmode => by simp [modeOf, hl] at hmode⟩
    have hq : (prepare_quiz p s).questions = (applyPerm p s.questions).take 20 := by
      simp [prepare_quiz, hl]
    refine ⟨?_, ?_, ?_⟩
    · rw [hq]
      simp [List.length_take, hlen, Nat.min_comm]
    · rw [hq]
      exact ((List.take_sublist 20 _).subperm).trans hperm.subperm
    · intro h20
      rw [hq, List.take_of_length_le (by omega)]
      exact hperm

/-- Witness for `c3_sampling_policy`: a 3-question pool in Limited mode is
returned whole, as a permutation. -/
theorem c3_sampling_policy_witness :
    (prepare_quiz [2, 0, 1] (init_state ((List.range 3).map mkQ))).questions.Perm
      (init_state ((List.range 3).map mkQ)).questions :=
  ((c3_sampling_policy [2, 0, 1] (init_state ((List.range 3).map mkQ))
      (by decide)).1 rfl).2.2 (by decide)

/-- C4 fails on the code: at the category menu, 'q' does not lead back to
course selection — `Quiz.run` breaks out of its loop and the program exits. -/
theorem c4_quit_counterexample :
    run_category_menu_step [] [] true ['q'] = some .Exit ∧
    run_category_menu_step [] [] true ['q'] ≠ some .CourseSelect := by
  constructor <;> decide

/-- C4 (amended): pressing 'q' while at the category menu makes
`select_category` return `None`, upon which `Quiz.run` breaks out of its loop
and the application exits — the session never returns to course selection
(`select_level` has no caller and `main.quiz` runs `Quiz.run` once). -/
theorem c4_category_menu_quit_exits (categories sorted_cats : List (String × List Question))
    (limit : Bool) (ks : List Char) :
    select_category_loop categories sorted_cats limit ('q' :: ks) = some none ∧
    run_category_menu_step categories sorted_cats limit ('q' :: ks) = some .Exit := by
  have h : select_category_key categories sorted_cats limit 'q' = .quit := by
    simp [select_category_key]
  constructor
  · simp [select_category_loop, h]
  · simp [run_category_menu_step, select_category_loop, h]

theorem shifted_digit_map_not_digit (k : Char) (d : Nat)
    (h : shifted_digit_map k = some d) : ¬ k.isDigit ∧ k ≠ 'q' := by
  unfold shifted_digit_map at h
  split at h <;> first
    | exact ⟨by decide, by decide⟩
    | simp at h

/-- C5: how `select_category` resolves one key against `optionCount =
len(sorted_cats)` menu entries: an in-range digit selects that index's pool
with `limit_questions = True` (Limited); an in-range shifted symbol selects
the same index with `limit_questions = False` (Unlimited); `'q'` quits; an
out-of-range digit or shifted symbol and any other character select nothing
and the loop reads the next key. -/
theorem c5_selection_protocol (categories sorted_cats : List (String × List Question))
    (limit : Bool) (k : Char) (ks : List Char) :
    (k = 'q' → select_category_key categories sorted_cats limit k = .quit) ∧
    (k.isDigit → k.toNat - 48 ≤ sorted_cats.length →
        select_category_key categories sorted_cats limit k
          = .chosen (menu_pool categories sorted_cats (k.toNat - 48)) true
              (menu_name sorted_cats (k.toNat - 48)) ∧
        modeOf true = .Limited) ∧
    (∀ d, shifted_digit_map k = some d → d ≤ sorted_cats.length →
        select_category_key categories sorted_cats limit k
          = .chosen (menu_pool categories sorted_cats d) false (menu_name sorted_cats d) ∧
        modeOf false = .Unlimited) ∧
    (k.isDigit → sorted_cats.length < k.toNat - 48 →
        select_category_key categories sorted_cats limit k = .retry true ∧
        select_category_loop categories sorted_cats limit (k :: ks)
          = select_category_loop categories sorted_cats true ks) ∧
    (∀ d, shifted_digit_map k = some d → sorted_cats.length < d →
        select_category_key categories sorted_cats limit k = .retry false ∧
        select_category_loop categories sorted_cats limit (k :: ks)
          = select_category_loop categories sorted_cats false ks) ∧
    (¬ k.isDigit → k ≠ 'q' → shifted_digit_map k = none →
        select_category_key categories sorted_cats limit k = .retry limit ∧
        select_category_loop categories sorted_cats limit (k :: ks)
          = select_category_loop categories sorted_cats limit ks) := by
  refine ⟨fun hq => ?_, fun hd hle => ?_, fun d hsh hle => ?_, fun hd hgt => ?_,
    fun d hsh hgt => ?_, fun hnd hnq hnone => ?_⟩
  · simp [select_category_key, hq]
  · have hkq : ¬ k = 'q' := by
      intro h
      rw [h] at hd
      exact absurd hd (by decide)
    by_cases h0 : k.toNat - 48 = 0
    · refine ⟨?_, rfl⟩
      simp [select_category_key, hkq, hd, h0, menu_pool, menu_name]
    · refine ⟨?_, rfl⟩
      have h1 : 1 ≤ k.toNat - 48 ∧ k.toNat - 48 ≤ sorted_cats.length := ⟨by omega, hle⟩
      simp [select_category_key, hkq, hd, h0, h1, menu_pool, menu_name]
  · obtain ⟨hnd, hnq⟩ := shifted_digit_map_not_digit k d hsh
    by_cases h0 : d = 0
    · refine ⟨?_, rfl⟩
      simp [select_category_key, hnq, hnd, hsh, h0, menu_pool, menu_name]
    · refine ⟨?_, rfl⟩
      have h1 : 1 ≤ d ∧ d ≤ sorted_cats.length := ⟨by omega, hle⟩
      simp [select_category_key, hnq, hnd, hsh, h0, h1, menu_pool, menu_name]
  · have hkq : ¬ k = 'q' := by
      intro h
      rw [h] at hd
      exact absurd hd (by decide)
    have h0 : ¬ k.toNat - 48 = 0 := by omega
    have hkey : select_category_key categories sorted_cats limit k = .retry true := by
      simp [select_category_key, hkq, hd, h0]
      omega
    exact ⟨hkey, by simp [select_category_loop, hkey]⟩
  · obtain ⟨hnd, hnq⟩ := shifted_digit_map_not_digit k d hsh
    have h0 : ¬ d = 0 := by omega
    have hkey : select_category_key categories sorted_cats limit k = .retry false := by
      simp [select_category_key, hnq, hnd, hsh, h0]
      omega
    exact ⟨hkey, by simp [select_category_loop, hkey]⟩
  · have hkey : select_category_key categories sorted_cats limit k = .retry limit := by
      simp [select_category_key, hnq, hnd, hnone]
    exact ⟨hkey, by simp [select_category_loop, hkey]⟩

/-- A five-category bank matching the spec's `optionCount = 5` example. -/
def cats5 : List (String × List Question) :=
  [("Antennas", [mkQ 1]), ("Circuits", [mkQ 2]), ("Operating", [mkQ 3]),
   ("Propagation", [mkQ 4]), ("Regulation", [mkQ 5])]

/-- Witness for `c5_selection_protocol`: with 5 categories, `'3'` chooses
entry 3 Limited, `'#'` chooses entry 3 Unlimited, `'q'` quits, `'9'` and
`'x'` resolve to another read. -/
theorem c5_selection_protocol_witness :
    select_category_key cats5 cats5 true '3'
        = .chosen (menu_pool cats5 cats5 3) true (menu_name cats5 3) ∧
    select_category_key cats5 cats5 true '#'
        = .chosen (menu_pool cats5 cats5 3) false (menu_name cats5 3) ∧
    select_category_key cats5 cats5 true 'q' = .quit ∧
    select_category_key cats5 cats5 true '9' = .retry true ∧
    select_category_key cats5 cats5 true 'x' = .retry true :=
  ⟨((c5_selection_protocol cats5 cats5 true '3' []).2.1 (by decide) (by decide)).1,
   ((c5_selection_protocol cats5 cats5 true '#' []).2.2.1 3 (by decide) (by decide)).1,
   (c5_selection_protocol cats5 cats5 true 'q' []).1 rfl,
   ((c5_selection_protocol cats5 cats5 true '9' []).2.2.2.1 (by decide) (by decide)).1,
   ((c5_selection_protocol cats5 cats5 true 'x' []).2.2.2.2.2 (by decide) (by decide)
      (by decide)).1⟩

/-- A bank with two categories of sizes 5 and 7. -/
def exBank : List (String × List Question) :=
  [("Operating", (List.range 5).map mkQ),
   ("Regulation", (List.range 7).map (fun n => mkQ (5 + n)))]

/-- C7: the "All Categories" pseudo-entry is row 0 of the menu, key `'0'`
selects it, its pool is the concatenation of every category's questions, and
its size is the sum of the category sizes (12 for sizes 5 and 7). -/
theorem c7_all_categories (categories sorted_cats : List (String × List Question))
    (limit : Bool) :
    (all_categories_pool categories).length = total_questions categories ∧
    (show_menu_rows categories).getD 0 (1, "", 0)
      = (0, "All Categories", total_questions categories) ∧
    select_category_key categories sorted_cats limit '0'
      = .chosen (all_categories_pool categories) true "All Categories" ∧
    exBank.map (fun c => c.2.length) = [5, 7] ∧
    (all_categories_pool exBank).length = 12 := by
  refine ⟨?_, rfl, ?_, by decide, by decide⟩
  · simp [all_categories_pool, total_questions, List.length_flatten, List.map_map]
    rfl
  · have h1 : ¬ ('0' = 'q') := by decide
    have h2 : ('0'.isDigit) = true := by decide
    have h3 : '0'.toNat - 48 = 0 := by decide
    simp [select_category_key, h1, h2, h3]

/-- C8: presenting a question stores as the session's current choice ordering
a shuffle of exactly that question's four choice texts (answer and three
distractors) under the freshly drawn outcome `p` — a permutation of those
four strings, fully determined by `p` and the question and independent of
whatever ordering was stored before — and the run loop draws the next fresh
outcome from the randomness source each time it presents. -/
theorem c8_fresh_shuffle (p : List Nat) (s : QuizState) (q : Question)
    (rand : Nat → List Nat) (rc : Nat)
    (hp : p.Perm (List.range 4)) (hq : s.questions[s.current_index]? = some q) :
    (show_question p s).current_choices.Perm q.choices ∧
    (show_question p s).current_choices = applyPerm p q.choices ∧
    (∀ old : List String,
        (show_question p { s with current_choices := old }).current_choices
          = applyPerm p q.choices) ∧
    (s.current_index < s.questions.length →
        run_quiz_go rand rc false s [] = .blocked (show_question (rand rc) s)) := by
  have hcur : (show_question p s).current_choices = applyPerm p q.choices := by
    simp [show_question, hq]
  refine ⟨?_, hcur, fun old => ?_, fun hact => ?_⟩
  · rw [hcur]
    exact applyPerm_perm p q.choices hp
  · simp [show_question, hq]
  · unfold run_quiz_go
    simp [hact]

/-- Witness for `c8_fresh_shuffle`: presenting `exampleQ` under
`examplePerm` yields a permutation of its four choice texts. -/
theorem c8_fresh_shuffle_witness :
    (show_question examplePerm (init_state [exampleQ])).current_choices.Perm
      exampleQ.choices :=
  (c8_fresh_shuffle examplePerm (init_state [exampleQ]) exampleQ
    (fun _ => examplePerm) 0 (by decide) rfl).1

/-- C6: `'q'` aborts exactly at an Active question (awaiting an answer key):
while a question is active the next key `'q'` returns immediately as
`aborted`; answering consumes exactly its own key and the feedback display
reads none, so a subsequent `'q'` is only ever interpreted at the next
active question; once no question is active the remaining keys (including
`'q'`) are ignored and `show_results` runs, which never aborts; an aborted
outcome carries no results view (no score, total or percentage). -/
theorem c6_quit_asymmetry (rand : Nat → List Nat) (rc : Nat) (presented : Bool)
    (s : QuizState) (keys ks : List Char) (k : Char) :
    (s.current_index < s.questions.length →
        run_quiz_go rand rc presented s ('q' :: ks)
          = .aborted (if presented then s else show_question (rand rc) s)) ∧
    (¬ s.current_index < s.questions.length →
        run_quiz_go rand rc presented s keys = show_results s) ∧
    (∀ s', show_results s ≠ .aborted s') ∧
    (s.current_index < s.questions.length →
        (k = '1' ∨ k = '2' ∨ k = '3' ∨ k = '4') →
        run_quiz_go rand rc presented s (k :: ks)
          = run_quiz_go rand (if presented then rc else rc + 1) false
              (let s2 := check_answer (k.toNat - 48)
                  (if presented then s else show_question (rand rc) s)
               { s2 with current_index := s2.current_index + 1 }) ks) ∧
    (∀ r : RunResult, ∀ t, r = .aborted t → r.results_view = none) := by
  refine ⟨fun hact => ?_, fun hdone => ?_, fun s' => ?_, fun hact hk => ?_,
    fun r t hr => ?_⟩
  · unfold run_quiz_go
    simp [hact]
  · cases keys <;> (unfold run_quiz_go; simp [hdone])
  · unfold show_results
    split <;> simp
  · rcases hk with rfl | rfl | rfl | rfl <;> (conv_lhs => rw [run_quiz_go]) <;> simp [hact]
  · rw [hr]
    rfl

/-- Witness for `c6_quit_asymmetry`: on a fresh one-question session, the key
`'q'` aborts the run at once. -/
theorem c6_quit_asymmetry_witness :
    run_quiz_go (fun _ => examplePerm) 0 false (init_state [exampleQ]) ['q']
      = .aborted (if (false : Bool) then init_state [exampleQ]
          else show_question examplePerm (init_state [exampleQ])) :=
  (c6_quit_asymmetry (fun _ => examplePerm) 0 false (init_state [exampleQ])
    [] [] 'x').1 (by decide)

theorem show_question_fields (p : List Nat) (s : QuizState) :
    (show_question p s).questions = s.questions ∧
    (show_question p s).current_index = s.current_index ∧
    (show_question p s).score = s.score ∧
    (show_question p s).questions_answered_incorrectly
      = s.questions_answered_incorrectly ∧
    (show_question p s).limit_questions = s.limit_questions := by
  cases hq : s.questions[s.current_index]? <;> simp [show_question, hq]

theorem check_answer_fields (n : Nat) (s : QuizState) :
    (check_answer n s).questions = s.questions ∧
    (check_answer n s).current_index = s.current_index := by
  cases hq : s.questions[s.current_index]? <;> simp [check_answer, hq]
  constructor <;> (split <;> rfl)

theorem check_answer_count (n : Nat) (s : QuizState) (q : Question)
    (hq : s.questions[s.current_index]? = some q) :
    (check_answer n s).score + (check_answer n s).questions_answered_incorrectly.length
      = s.score + s.questions_answered_incorrectly.length + 1 := by
  unfold check_answer
  rw [hq]
  by_cases hsel : s.current_choices[n - 1]?.getD "" = q.answer
  · simp [hsel]
    try omega
  · simp [hsel]
    try omega

theorem show_results_state (s : QuizState) : (show_results s).state = s := by
  unfold show_results
  split <;> rfl

/-- The invariant of C10: the score plus the incorrect-answer log length
equals the number of questions answered so far (the cursor), which never
exceeds the working question list's length. -/
def quizInv (s : QuizState) : Prop :=
  s.score + s.questions_answered_incorrectly.length = s.current_index ∧
  s.current_index ≤ s.questions.length

theorem show_question_inv (p : List Nat) (s : QuizState) (h : quizInv s) :
    quizInv (show_question p s) := by
  obtain ⟨h1, h2⟩ := h
  obtain ⟨hq, hi, hs, hl, _⟩ := show_question_fields p s
  exact ⟨by rw [hs, hl, hi]; exact h1, by rw [hi, hq]; exact h2⟩

theorem advance_inv (n : Nat) (s : QuizState)
    (hact : s.current_index < s.questions.length) (h : quizInv s) :
    quizInv { check_answer n s with
              current_index := (check_answer n s).current_index + 1 } := by
  obtain ⟨h1, h2⟩ := h
  obtain ⟨q, hq⟩ : ∃ q, s.questions[s.current_index]? = some q :=
    ⟨_, List.getElem?_eq_getElem hact⟩
  have hcnt := check_answer_count n s q hq
  obtain ⟨hqs, hidx⟩ := check_answer_fields n s
  constructor
  · show (check_answer n s).score
        + (check_answer n s).questions_answered_incorrectly.length
        = (check_answer n s).current_index + 1
    rw [hcnt, hidx]
    omega
  · show (check_answer n s).current_index + 1 ≤ (check_answer n s).questions.length
    rw [hidx, hqs]
    omega

theorem run_quiz_go_nil (rand : Nat → List Nat) (rc : Nat) (presented : Bool)
    (s : QuizState) (hact : s.current_index < s.questions.length) :
    run_quiz_go rand rc presented s []
      = .blocked (if presented then s else show_question (rand rc) s) := by
  rw [run_quiz_go]
  simp [hact]

theorem run_quiz_go_done (rand : Nat → List Nat) (rc : Nat) (presented : Bool)
    (s : QuizState) (keys : List Char)
    (hact : ¬ s.current_index < s.questions.length) :
    run_quiz_go rand rc presented s keys = show_results s := by
  cases keys <;> (rw [run_quiz_go]; simp [hact])

theorem run_quiz_go_cons_q (rand : Nat → List Nat) (rc : Nat) (presented : Bool)
    (s : QuizState) (ks : List Char)
    (hact : s.current_index < s.questions.length) :
    run_quiz_go rand rc presented s ('q' :: ks)
      = .aborted (if presented then s else show_question (rand rc) s) := by
  rw [run_quiz_go]
  simp [hact]

theorem run_quiz_go_cons_answer (rand : Nat → List Nat) (rc : Nat) (presented : Bool)
    (s : QuizState) (ks : List Char) (k : Char)
    (hact : s.current_index < s.questions.length)
    (hk : k = '1' ∨ k = '2' ∨ k = '3' ∨ k = '4') :
    run_quiz_go rand rc presented s (k :: ks)
      = run_quiz_go rand (if presented then rc else rc + 1) false
          { check_answer (k.toNat - 48)
              (if presented then s else show_question (rand rc) s) with
            current_index := (check_answer (k.toNat - 48)
              (if presented then s else show_question (rand rc) s)).current_index + 1 }
          ks := by
  rcases hk with rfl | rfl | rfl | rfl <;> (conv_lhs => rw [run_quiz_go]) <;> simp [hact]

theorem run_quiz_go_cons_other (rand : Nat → List Nat) (rc : Nat) (presented : Bool)
    (s : QuizState) (ks : List Char) (k : Char)
    (hact : s.current_index < s.questions.length)
    (hkq : k ≠ 'q') (hk : ¬ (k = '1' ∨ k = '2' ∨ k = '3' ∨ k = '4')) :
    run_quiz_go rand rc presented s (k :: ks)
      = run_quiz_go rand (if presented then rc else rc + 1) true
          (if presented then s else show_question (rand rc) s) ks := by
  conv_lhs => rw [run_quiz_go]
  simp [hact, hkq, hk]

theorem run_quiz_go_inv (rand : Nat → List Nat) (keys : List Char) :
    ∀ (rc : Nat) (presented : Bool) (s : QuizState),
      quizInv s → quizInv (run_quiz_go rand rc presented s keys).state := by
  induction keys with
  | nil =>
    intro rc presented s h
    by_cases hact : s.current_index < s.questions.length
    · rw [run_quiz_go_nil rand rc presented s hact]
      show quizInv (if presented then s else show_question (rand rc) s)
      split
      · exact h
      · exact show_question_inv _ _ h
    · rw [run_quiz_go_done rand rc presented s [] hact, show_results_state]
      exact h
  | cons k ks ih =>
    intro rc presented s h
    by_cases hact : s.current_index < s.questions.length
    · have hs' : quizInv (if presented then s else show_question (rand rc) s) := by
        split
        · exact h
        · exact show_question_inv _ _ h
      by_cases hkq : k = 'q'
      · subst hkq
        rw [run_quiz_go_cons_q rand rc presented s ks hact]
        exact hs'
      · by_cases hk : k = '1' ∨ k = '2' ∨ k = '3' ∨ k = '4'
        · rw [run_quiz_go_cons_answer rand rc presented s ks k hact hk]
          apply ih
          have hact' : (if presented then s else show_question (rand rc) s).current_index
              < (if presented then s else show_question (rand rc) s).questions.length := by
            split
            · exact hact
            · obtain ⟨hq, hi, _, _, _⟩ := show_question_fields (rand rc) s
              rw [hi, hq]
              exact hact
          exact advance_inv _ _ hact' hs'
        · rw [run_quiz_go_cons_other rand rc presented s ks k hact hkq hk]
          exact ih _ _ _ hs'
    · rw [run_quiz_go_done rand rc presented s (k :: ks) hact, show_results_state]
      exact h

theorem run_quiz_go_preserves_questions (rand : Nat → List Nat) (keys : List Char) :
    ∀ (rc : Nat) (presented : Bool) (s : QuizState),
      (run_quiz_go rand rc presented s keys).state.questions = s.questions := by
  induction keys with
  | nil =>
    intro rc presented s
    by_cases hact : s.current_index < s.questions.length
    · rw [run_quiz_go_nil rand rc presented s hact]
      show (if presented then s else show_question (rand rc) s).questions = s.questions
      split
      · rfl
      · exact (show_question_fields (rand rc) s).1
    · rw [run_quiz_go_done rand rc presented s [] hact, show_results_state]
  | cons k ks ih =>
    intro rc presented s
    by_cases hact : s.current_index < s.questions.length
    · have hs' : (if presented then s else show_question (rand rc) s).questions
          = s.questions := by
        split
        · rfl
        · exact (show_question_fields (rand rc) s).1
      by_cases hkq : k = 'q'
      · subst hkq
        rw [run_quiz_go_cons_q rand rc presented s ks hact]
        exact hs'
      · by_cases hk : k = '1' ∨ k = '2' ∨ k = '3' ∨ k = '4'
        · rw [run_quiz_go_cons_answer rand rc presented s ks k hact hk]
          rw [ih]
          show (check_answer (k.toNat - 48)
              (if presented then s else show_question (rand rc) s)).questions = s.questions
          rw [(check_answer_fields _ _).1, hs']
        · rw [run_quiz_go_cons_other rand rc presented s ks k hact hkq hk]
          rw [ih, hs']
    · rw [run_quiz_go_done rand rc presented s (k :: ks) hact, show_results_state]

theorem getD_append_left (l l' : List α) (i : Nat) (d : α) (h : i < l.length) :
    (l ++ l').getD i d = l.getD i d := by
  rw [List.getD_eq_getElem?_getD, List.getD_eq_getElem?_getD,
    List.getElem?_append_left h]

theorem getD_set_ne (l : List α) (i j : Nat) (x : α) (d : α) (h : i ≠ j) :
    (l.set i x).getD j d = l.getD j d := by
  rw [List.getD_eq_getElem?_getD, List.getD_eq_getElem?_getD, List.getElem?_set_ne h]

theorem prepare_quiz_heap_preserves (p : List Nat) (o : QuizObj) (i : Nat)
    (hi : i < o.heap.length) (hne : i ≠ o.questions_ref) :
    (prepare_quiz_heap p o).heap.getD i [] = o.heap.getD i [] := by
  by_cases hl : o.limit_questions = true
  · have hdef : (prepare_quiz_heap p o).heap
        = (o.heap.set o.questions_ref (applyPerm p (o.heap.getD o.questions_ref [])))
          ++ [(applyPerm p (o.heap.getD o.questions_ref [])).take 20] := by
      simp [prepare_quiz_heap, hl]
    rw [hdef, getD_append_left _ _ _ _ (by simpa using hi)]
    exact getD_set_ne _ _ _ _ _ (Ne.symm hne)
  · have hdef : (prepare_quiz_heap p o).heap
        = o.heap.set o.questions_ref (applyPerm p (o.heap.getD o.questions_ref [])) := by
      simp [prepare_quiz_heap, hl]
    rw [hdef]
    exact getD_set_ne _ _ _ _ _ (Ne.symm hne)

/-- C9: selecting a pool and applying the sampling policy never mutates a
category's stored question list: the specific-category branch copies the list
into a fresh cell, the "All Categories" branch builds a fresh union cell, and
`prepare_quiz`'s in-place shuffle and subsequent slice rebind touch only that
fresh cell, so every category cell holds exactly the list (same elements,
same order) it held before; the question loop itself never reassigns the
working list either. -/
theorem c9_sampling_does_not_mutate (o : QuizObj) (r : Nat) (p : List Nat)
    (rand : Nat → List Nat) (rc : Nat) (presented : Bool) (s : QuizState)
    (keys : List Char)
    (hwf : ∀ c ∈ o.categories, c.2 < o.heap.length) :
    (∀ c ∈ o.categories,
        (prepare_quiz_heap p (select_copy_category o r)).heap.getD c.2 []
          = o.heap.getD c.2 []) ∧
    (∀ c ∈ o.categories,
        (prepare_quiz_heap p (select_all_categories o)).heap.getD c.2 []
          = o.heap.getD c.2 []) ∧
    (run_quiz_go rand rc presented s keys).state.questions = s.questions := by
  refine ⟨fun c hc => ?_, fun c hc => ?_,
    run_quiz_go_preserves_questions rand keys rc presented s⟩
  · have hc2 := hwf c hc
    have h2 : c.2 < (select_copy_category o r).heap.length := by
      show c.2 < (o.heap ++ _).length
      simp only [List.length_append, List.length_cons, List.length_nil]
      omega
    have h3 : c.2 ≠ (select_copy_category o r).questions_ref := by
      show c.2 ≠ o.heap.length
      omega
    rw [prepare_quiz_heap_preserves p _ c.2 h2 h3]
    exact getD_append_left _ _ _ _ hc2
  · have hc2 := hwf c hc
    have h2 : c.2 < (select_all_categories o).heap.length := by
      show c.2 < (o.heap ++ _).length
      simp only [List.length_append, List.length_cons, List.length_nil]
      omega
    have h3 : c.2 ≠ (select_all_categories o).questions_ref := by
      show c.2 ≠ o.heap.length
      omega
    rw [prepare_quiz_heap_preserves p _ c.2 h2 h3]
    exact getD_append_left _ _ _ _ hc2

/-- A concrete two-category heap for the frame witness. -/
def exObj : QuizObj :=
  { heap := [[mkQ 0], [mkQ 1]]
    categories := [("A", 0), ("B", 1)]
    questions_ref := 0
    limit_questions := true }

/-- Witness for `c9_sampling_does_not_mutate`: after copying category "B" and
preparing the quiz, category "B"'s cell is unchanged. -/
theorem c9_sampling_does_not_mutate_witness :
    (prepare_quiz_heap [0] (select_copy_category exObj 1)).heap.getD 1 []
      = exObj.heap.getD 1 [] :=
  (c9_sampling_does_not_mutate exObj 1 [0] (fun _ => []) 0 false (init_state []) []
    (by decide)).1 ("B", 1) (by decide)

/-- C10: after `prepare_quiz` the invariant `score + |incorrect log| =
cursor ∧ cursor ≤ |questions|` holds; one answered question (check plus
cursor advance) preserves it; it holds of the state in which any run of the
question loop ends; and under it the score never exceeds the working question
list's length (it is a natural number, so 0 ≤ score throughout). -/
theorem c10_score_invariant (p : List Nat) (n : Nat) (rand : Nat → List Nat)
    (rc : Nat) (presented : Bool) (s t u : QuizState) (keys : List Char)
    (hact : t.current_index < t.questions.length) (ht : quizInv t)
    (hu : quizInv u) :
    quizInv (prepare_quiz p s) ∧
    quizInv { check_answer n t with
              current_index := (check_answer n t).current_index + 1 } ∧
    quizInv (run_quiz_go rand rc presented u keys).state ∧
    u.score ≤ u.questions.length := by
  refine ⟨⟨rfl, Nat.zero_le _⟩, advance_inv n t hact ht,
    run_quiz_go_inv rand keys rc presented u hu, ?_⟩
  obtain ⟨h1, h2⟩ := hu
  omega

/-- Witness for `c10_score_invariant`: a one-question run answered with key
`'1'` ends in a state satisfying the invariant. -/
theorem c10_score_invariant_witness :
    quizInv (run_quiz_go (fun _ => examplePerm) 0 false (init_state [exampleQ])
      ['1']).state ∧
    (init_state [exampleQ]).score ≤ (init_state [exampleQ]).questions.length :=
  ⟨(c10_score_invariant [0] 1 (fun _ => examplePerm) 0 false (init_state [exampleQ])
      (init_state [exampleQ]) (init_state [exampleQ]) ['1'] (by decide)
      ⟨rfl, by decide⟩ ⟨rfl, by decide⟩).2.2.1,
   (c10_score_invariant [0] 1 (fun _ => examplePerm) 0 false (init_state [exampleQ])
      (init_state [exampleQ]) (init_state [exampleQ]) ['1'] (by decide)
      ⟨rfl, by decide⟩ ⟨rfl, by decide⟩).2.2.2⟩
